import Mathlib

/-!
Shallow embedding of `src/data_loader.py` (class `DataLoader`), a pandas-based
loader for three tables (bonds, cashflows, company insights) with column
validation, JSON/date/numeric cell normalization, and filtered retrieval.

Tables (`pandas.DataFrame`) are modelled as a list of column names plus a list
of rows; each row is an association list from column name to a dynamic `Value`
(the union of cell types that occur: null/NaN/NaT, strings, numbers, booleans,
calendar dates, parsed JSON objects and arrays). Methods that can raise are
modelled with `Except String`; the mutable `self.*` fields become an explicit
`DataLoader` record threaded through load calls, and the in-place mutation of
the caller's dataframe is modelled by returning the dataframe after the call
alongside the store.
-/

namespace DataLoaderModel

/-- A dynamic table-cell value: `null` stands for Python `None` / pandas
`NaN` / `NaT`; `date y m d` for a parsed `datetime64` calendar date;
`obj` / `arr` for nested structures produced by `json.loads`. -/
inductive Value where
  | null : Value
  | str : String → Value
  | num : Rat → Value
  | bool : Bool → Value
  | date : Nat → Nat → Nat → Value
  | obj : List (String × Value) → Value
  | arr : List Value → Value

/-- Elementwise comparison of a cell against a Python string, as performed by
`df[col] == s` in pandas: true exactly for an equal string cell; any other
cell type (including NaN) compares unequal. -/
def Value.eqStr (v : Value) (s : String) : Bool :=
  match v with
  | .str t => t == s
  | _ => false

theorem Value.eqStr_iff (v : Value) (s : String) : Value.eqStr v s = true ↔ v = Value.str s := by
  cases v <;> simp [Value.eqStr]

/-- A dataframe row: association list from column name to cell value
(every column of the frame is assumed bound, as in pandas). -/
abbrev Row := List (String × Value)

/-- A pandas `DataFrame`: ordered column names and rows. -/
structure DataFrame where
  cols : List String
  rows : List Row

/-- Cell lookup `row[col]`; an unbound column reads as `null` (cannot happen
for well-formed pandas frames, where every row binds every column). -/
def getCell (r : Row) (c : String) : Value :=
  match r.find? (fun p => p.1 == c) with
  | some p => p.2
  | none => Value.null

/-- Replace the value bound to column `c` in a row (used only for columns
present in the frame, mirroring the `if col in df.columns` guards). -/
def setCell (r : Row) (c : String) (v : Value) : Row :=
  r.map (fun p => if p.1 == c then (p.1, v) else p)

/-- The state held on the `DataLoader` instance: the three stored tables,
`None` until the corresponding load succeeds. -/
structure DataLoader where
  bond_details : Option DataFrame
  cashflow_details : Option DataFrame
  company_insights : Option DataFrame

/-- A fresh `DataLoader()`: nothing loaded. -/
def DataLoader.init : DataLoader :=
  { bond_details := none, cashflow_details := none, company_insights := none }

/-! ## `json.loads`

A recursive-descent JSON reader over the character list, total by a fuel
counter. It models the Python `json` module on the values that occur in this
repository's data: objects, arrays, strings with escapes, numbers (with the
RFC 8259 leading-zero rule that Python enforces), `true`/`false`/`null`.
`none` stands for `json.JSONDecodeError`. Out of modelled scope: the Python
extensions `NaN`/`Infinity` and surrogate-pair `\u` escapes. -/

def isJsonWs (c : Char) : Bool :=
  c == ' ' || c == '\t' || c == '\n' || c == '\r'

def dropWs : List Char → List Char
  | c :: cs => if isJsonWs c then dropWs cs else c :: cs
  | [] => []

/-- Python whitespace as removed by `str.strip()` (space, tab, newline,
carriage return, vertical tab, form feed). -/
def isPyWs (c : Char) : Bool :=
  c == ' ' || c == '\t' || c == '\n' || c == '\r' || c == Char.ofNat 11 || c == Char.ofNat 12

/-- Python `str.strip()` on the character list. -/
def stripChars (cs : List Char) : List Char :=
  ((cs.dropWhile isPyWs).reverse.dropWhile isPyWs).reverse

/-- Split a character list on a separator character (like `str.split(sep)`,
which never drops empty fields). -/
def splitOnChar : List Char → Char → List (List Char)
  | [], _ => [ [] ]
  | c :: cs, sep =>
    if c = sep then [] :: splitOnChar cs sep
    else
      match splitOnChar cs sep with
      | g :: gs => (c :: g) :: gs
      | [] => [ [ c ] ]

def hexDigitVal (c : Char) : Option Nat :=
  if '0' ≤ c ∧ c ≤ '9' then some (c.toNat - 48)
  else if 'a' ≤ c ∧ c ≤ 'f' then some (c.toNat - 97 + 10)
  else if 'A' ≤ c ∧ c ≤ 'F' then some (c.toNat - 65 + 10)
  else none

def hexQuad (a b c d : Char) : Option Nat := do
  let va ← hexDigitVal a
  let vb ← hexDigitVal b
  let vc ← hexDigitVal c
  let vd ← hexDigitVal d
  pure (((va * 16 + vb) * 16 + vc) * 16 + vd)

def escChar : Char → Option Char
  | '"' => some '"'
  | '\\' => some '\\'
  | '/' => some '/'
  | 'b' => some (Char.ofNat 8)
  | 'f' => some (Char.ofNat 12)
  | 'n' => some '\n'
  | 'r' => some '\r'
  | 't' => some '\t'
  | _ => none

/-- Body of a JSON string literal, after the opening quote; unescaped control
characters and bad escapes are rejected, as in Python. -/
def strBody (acc : List Char) : List Char → Option (String × List Char)
  | '"' :: r => some (String.mk acc.reverse, r)
  | '\\' :: 'u' :: a :: b :: c :: d :: r =>
    match hexQuad a b c d with
    | some n => strBody (Char.ofNat n :: acc) r
    | none => none
  | '\\' :: e :: r =>
    match escChar e with
    | some c => strBody (c :: acc) r
    | none => none
  | c :: r => if c.toNat < 32 then none else strBody (c :: acc) r
  | [] => none

def digitRun : List Char → List Char × List Char
  | c :: cs =>
    if c.isDigit then
      let (ds, r) := digitRun cs
      (c :: ds, r)
    else ([], c :: cs)
  | [] => ([], [])

def digitsVal (ds : List Char) : Nat :=
  ds.foldl (fun a c => a * 10 + (c.toNat - 48)) 0

/-- The rational `m * 10 ^ e`. -/
def ratTimes10 (m : Int) (e : Int) : Rat :=
  if 0 ≤ e then (m : Rat) * ((10 : Rat) ^ e.toNat)
  else (m : Rat) / ((10 : Rat) ^ (-e).toNat)

/-- A JSON number token: `-? int frac? exp?` with `int = 0 | [1-9][0-9]*`. -/
def numToken (cs : List Char) : Option (Value × List Char) :=
  let (neg, cs1) := match cs with
    | '-' :: r => (true, r)
    | _ => (false, cs)
  let (ids, cs2) := digitRun cs1
  if ids = [] then none
  else if 1 < ids.length ∧ ids.head? = some '0' then none
  else
    let (hasDot, fds, cs3) := match cs2 with
      | '.' :: r =>
        let (ds, r2) := digitRun r
        (true, ds, r2)
      | _ => (false, ([] : List Char), cs2)
    if hasDot ∧ fds = [] then none
    else
      let (hasExp, eneg, eds, cs4) := match cs3 with
        | 'e' :: r | 'E' :: r =>
          match r with
          | '+' :: r2 =>
            let (ds, r3) := digitRun r2
            (true, false, ds, r3)
          | '-' :: r2 =>
            let (ds, r3) := digitRun r2
            (true, true, ds, r3)
          | _ =>
            let (ds, r3) := digitRun r
            (true, false, ds, r3)
        | _ => (false, false, ([] : List Char), cs3)
      if hasExp ∧ eds = [] then none
      else
        let mant : Int := (if neg then -1 else 1) * (digitsVal (ids ++ fds) : Int)
        let e10 : Int := (if eneg then -(digitsVal eds : Int) else (digitsVal eds : Int))
          - (fds.length : Int)
        some (Value.num (ratTimes10 mant e10), cs4)

mutual

/-- One JSON value starting at `cs` (leading whitespace allowed). -/
def parseJsonVal (fuel : Nat) (cs : List Char) : Option (Value × List Char) :=
  match fuel with
  | 0 => none
  | f + 1 =>
    match dropWs cs with
    | 'n' :: 'u' :: 'l' :: 'l' :: r => some (Value.null, r)
    | 't' :: 'r' :: 'u' :: 'e' :: r => some (Value.bool true, r)
    | 'f' :: 'a' :: 'l' :: 's' :: 'e' :: r => some (Value.bool false, r)
    | '"' :: r => (strBody [] r).map (fun p => (Value.str p.1, p.2))
    | '[' :: r =>
      match dropWs r with
      | ']' :: r2 => some (Value.arr [], r2)
      | _ => (parseElems f r).map (fun p => (Value.arr p.1, p.2))
    | '{' :: r =>
      match dropWs r with
      | '}' :: r2 => some (Value.obj [], r2)
      | _ => (parseMembers f r).map (fun p => (Value.obj p.1, p.2))
    | r => numToken r

/-- Comma-separated array elements up to the closing bracket. -/
def parseElems (fuel : Nat) (cs : List Char) : Option (List Value × List Char) :=
  match fuel with
  | 0 => none
  | f + 1 => do
    let (v, r) ← parseJsonVal f cs
    match dropWs r with
    | ',' :: r2 => do
      let (vs, r3) ← parseElems f r2
      pure (v :: vs, r3)
    | ']' :: r2 => pure ([v], r2)
    | _ => none

/-- Comma-separated `"key": value` members up to the closing brace. -/
def parseMembers (fuel : Nat) (cs : List Char) :
    Option (List (String × Value) × List Char) :=
  match fuel with
  | 0 => none
  | f + 1 =>
    match dropWs cs with
    | '"' :: r => do
      let (k, r1) ← strBody [] r
      match dropWs r1 with
      | ':' :: r2 => do
        let (v, r3) ← parseJsonVal f r2
        match dropWs r3 with
        | ',' :: r4 => do
          let (ms, r5) ← parseMembers f r4
          pure ((k, v) :: ms, r5)
        | '}' :: r4 => pure ([(k, v)], r4)
        | _ => none
      | _ => none
    | _ => none

end

/-- Model of `json.loads`: parse one JSON document, demanding that only whitespace
remains; `none` models a raised `json.JSONDecodeError`. -/
def json_loads (s : String) : Option Value :=
  match parseJsonVal (s.length + 1) s.toList with
  | some (v, r) => if dropWs r = [] then some v else none
  | none => none

/-! ## Cell coercions -/

/-- One cell of the bond/company JSON normalisation
`df[col].apply(lambda x: json.loads(x) if isinstance(x, str) and x.strip() else \x7b\x7d)`:
a string that is non-empty after stripping goes through `json.loads`
(raising on malformed text, modelled as `.error`); any other cell — empty or
blank string, `None`/NaN, numbers — becomes the empty dict. -/
def jsonCell (v : Value) : Except String Value :=
  match v with
  | .str s =>
    if stripChars s.toList ≠ [] then
      match json_loads s with
      | some j => .ok j
      | none => .error "JSONDecodeError"
    else .ok (Value.obj [])
  | _ => .ok (Value.obj [])

def leapYear (y : Nat) : Bool :=
  (y % 4 == 0 && y % 100 != 0) || y % 400 == 0

def monthLen (y m : Nat) : Nat :=
  if m = 2 then (if leapYear y then 29 else 28)
  else if m = 4 ∨ m = 6 ∨ m = 9 ∨ m = 11 then 30
  else 31

/-- Lexicographic order on `(year, month, day)` triples. -/
def tripleLe (a b : Nat × Nat × Nat) : Bool :=
  a.1 < b.1 ||
    (a.1 == b.1 &&
      (a.2.1 < b.2.1 || (a.2.1 == b.2.1 && a.2.2 ≤ b.2.2)))

/-- A `strptime`-style reading of `'%d-%m-%Y'`: one or two digits of day, one
or two of month, up to four of year, separated by hyphens, the whole string
consumed, and the result a real calendar date inside the representable
`pandas.Timestamp` range (1677-09-22 to 2262-04-11; outside it
`errors='coerce'` also yields NaT). -/
def parseDMY (s : String) : Option (Nat × Nat × Nat) :=
  match splitOnChar s.toList '-' with
  | [ds, ms, ys] =>
    if ds ≠ [] ∧ ds.length ≤ 2 ∧ ds.all Char.isDigit ∧
        ms ≠ [] ∧ ms.length ≤ 2 ∧ ms.all Char.isDigit ∧
        ys ≠ [] ∧ ys.length ≤ 4 ∧ ys.all Char.isDigit then
      let d := digitsVal ds
      let m := digitsVal ms
      let y := digitsVal ys
      if 1 ≤ m ∧ m ≤ 12 ∧ 1 ≤ d ∧ d ≤ monthLen y m ∧
          tripleLe (1677, 9, 22) (y, m, d) ∧ tripleLe (y, m, d) (2262, 4, 11) then
        some (y, m, d)
      else none
    else none
  | _ => none

/-- One cell of `pd.to_datetime(df[col], format='%d-%m-%Y', errors='coerce')`:
strings are parsed against the format, anything unparseable coerces to NaT
(modelled `null`); already-datetime cells pass through. -/
def toDateCell (v : Value) : Value :=
  match v with
  | .str s =>
    match parseDMY s with
    | some (y, m, d) => Value.date y m d
    | none => Value.null
  | .date y m d => Value.date y m d
  | _ => Value.null

/-- Decimal-literal reading used by `pd.to_numeric` on strings: optional
surrounding whitespace and sign, digits with an optional fractional part
(at least one digit overall) and an optional exponent. -/
def parseDecimal (s : String) : Option Rat :=
  let cs := stripChars s.toList
  let (neg, cs1) := match cs with
    | '-' :: r => (true, r)
    | '+' :: r => (false, r)
    | _ => (false, cs)
  let (ids, cs2) := digitRun cs1
  let (fds, cs3) := match cs2 with
    | '.' :: r => digitRun r
    | _ => (([] : List Char), cs2)
  if ids = [] ∧ fds = [] then none
  else
    let (hasExp, eneg, eds, cs4) := match cs3 with
      | 'e' :: r | 'E' :: r =>
        match r with
        | '+' :: r2 =>
          let (ds, r3) := digitRun r2
          (true, false, ds, r3)
        | '-' :: r2 =>
          let (ds, r3) := digitRun r2
          (true, true, ds, r3)
        | _ =>
          let (ds, r3) := digitRun r
          (true, false, ds, r3)
      | _ => (false, false, ([] : List Char), cs3)
    if hasExp ∧ eds = [] then none
    else if cs4 ≠ [] then none
    else
      let mant : Int := (if neg then -1 else 1) * (digitsVal (ids ++ fds) : Int)
      let e10 : Int := (if eneg then -(digitsVal eds : Int) else (digitsVal eds : Int))
        - (fds.length : Int)
      some (ratTimes10 mant e10)

/-- One cell of `pd.to_numeric(df[col], errors='coerce')`: numbers stay,
booleans coerce to 0/1, numeric strings parse, anything else (including
unparseable strings and `None`/NaN) coerces to NaN (modelled `null`). -/
def toNumericCell (v : Value) : Value :=
  match v with
  | .num q => Value.num q
  | .bool b => Value.num (if b then 1 else 0)
  | .str s =>
    match parseDecimal s with
    | some q => Value.num q
    | none => Value.null
  | _ => Value.null

/-! ## Column passes

`df[col] = df[col].apply(f)` first computes the whole new column, then
assigns it: if `f` raises on any cell, the assignment never happens and the
column keeps its old contents, while columns already assigned by earlier loop
iterations keep their new ones. -/

def mapCellsExcept (f : Value → Except String Value) (c : String) :
    List Row → Except String (List Row)
  | [] => .ok []
  | r :: rs =>
    match f (getCell r c) with
    | .error e => .error e
    | .ok v =>
      match mapCellsExcept f c rs with
      | .error e => .error e
      | .ok rs2 => .ok (setCell r c v :: rs2)

/-- One `df[col] = df[col].apply(f)` step for a fallible `f`. -/
def applyColumn (f : Value → Except String Value) (c : String) (df : DataFrame) :
    Except String DataFrame :=
  (mapCellsExcept f c df.rows).map (fun rs => { df with rows := rs })

/-- The `for col in json_columns: if col in df.columns: df[col] = ...` loop:
stops at the first raising column, returning the dataframe as mutated so far. -/
def processJsonCols : List String → DataFrame → Except String Unit × DataFrame
  | [], df => (.ok (), df)
  | c :: cs, df =>
    if c ∈ df.cols then
      match applyColumn jsonCell c df with
      | .ok df2 => processJsonCols cs df2
      | .error e => (.error e, df)
    else processJsonCols cs df

/-- One infallible whole-column assignment `df[col] = coerce(df[col])`. -/
def mapCells (f : Value → Value) (c : String) (df : DataFrame) : DataFrame :=
  { df with rows := df.rows.map (fun r => setCell r c (f (getCell r c))) }

/-- The date/numeric conversion loops (never raise, thanks to
`errors='coerce'`). -/
def processCoerceCols (f : Value → Value) : List String → DataFrame → DataFrame
  | [], df => df
  | c :: cs, df =>
    if c ∈ df.cols then processCoerceCols f cs (mapCells f c df)
    else processCoerceCols f cs df

/-! ## Column lists (verbatim from the source) -/

def bondRequiredColumns : List String :=
  [ "isin", "company_name", "issue_size", "allotment_date",
    "maturity_date", "issuer_details", "instrument_details",
    "coupon_details" ]

def bondJsonColumns : List String :=
  [ "issuer_details", "instrument_details", "coupon_details",
    "redemption_details", "credit_rating_details", "listing_details" ]

def cashflowRequiredColumns : List String :=
  [ "isin", "cash_flow_date", "cash_flow_amount" ]

def dateColumns : List String :=
  [ "cash_flow_date", "record_date" ]

def numericColumns : List String :=
  [ "cash_flow_amount", "principal_amount", "interest_amount",
    "tds_amount", "remaining_principal" ]

def companyRequiredColumns : List String :=
  [ "company_name", "company_industry" ]

def companyJsonColumns : List String :=
  [ "key_metrics", "income_statement", "balance_sheet",
    "cashflow", "lenders_profile" ]

/-- The list `[col for col in required_columns if col not in df.columns]`. -/
def missingCols (required : List String) (df : DataFrame) : List String :=
  required.filter (fun c => !(df.cols.contains c))

/-- The `ValueError` text raised for missing columns. -/
def missingMsg (missing : List String) : String :=
  "Missing required columns: " ++ String.intercalate ", " missing

/-! ## The load methods

Each returns the outcome of the call, the caller's dataframe after the call
(the Python code normalizes `df` in place), and the `DataLoader` state after
the call. -/

def load_bond_data (st : DataLoader) (df : DataFrame) :
    Except String Unit × DataFrame × DataLoader :=
  let missing := missingCols bondRequiredColumns df
  if missing ≠ [] then (.error (missingMsg missing), df, st)
  else
    match processJsonCols bondJsonColumns df with
    | (.ok _, df2) => (.ok (), df2, { st with bond_details := some df2 })
    | (.error e, df2) => (.error e, df2, st)

def load_cashflow_data (st : DataLoader) (df : DataFrame) :
    Except String Unit × DataFrame × DataLoader :=
  let missing := missingCols cashflowRequiredColumns df
  if missing ≠ [] then (.error (missingMsg missing), df, st)
  else
    let df2 := processCoerceCols toDateCell dateColumns df
    let df3 := processCoerceCols toNumericCell numericColumns df2
    (.ok (), df3, { st with cashflow_details := some df3 })

def load_company_data (st : DataLoader) (df : DataFrame) :
    Except String Unit × DataFrame × DataLoader :=
  let missing := missingCols companyRequiredColumns df
  if missing ≠ [] then (.error (missingMsg missing), df, st)
  else
    match processJsonCols companyJsonColumns df with
    | (.ok _, df2) => (.ok (), df2, { st with company_insights := some df2 })
    | (.error e, df2) => (.error e, df2, st)

/-! ## Regex search for `Series.str.contains`

pandas `str.contains(pat, case=False, na=False)` treats `pat` as a regular
expression and applies `re.search` with `re.IGNORECASE`. The engine below
covers the fragment of Python regex syntax this embedding models: literal
characters, `.` (any character), postfix `*` on the preceding atom, and the
anchors `^` (leading) and `$` (trailing); remaining metacharacters are out of
modelled scope. Literal comparisons lowercase both sides (`IGNORECASE`). -/

def charMatch (pc c : Char) : Bool :=
  pc == '.' || pc.toLower == c.toLower

mutual

/-- Does the pattern match a prefix of the text? Structural on a fuel
counter; `2 * t.length + p.length + 1` steps always suffice (the top-level
wrapper below supplies that). -/
def matchHereF : Nat → List Char → List Char → Bool
  | 0, _, _ => false
  | f + 1, p, t =>
    match p with
    | [] => true
    | [pc] =>
      if pc = '$' then decide (t = [])
      else
        match t with
        | [] => false
        | c :: _ => charMatch pc c
    | pc :: p2 :: ps =>
      if p2 = '*' then matchStarF f pc ps t
      else
        match t with
        | [] => false
        | c :: t2 => charMatch pc c && matchHereF f (p2 :: ps) t2

/-- Kleene-star loop: `pc*` then the rest of the pattern `ps`. -/
def matchStarF : Nat → Char → List Char → List Char → Bool
  | 0, _, _, _ => false
  | f + 1, pc, ps, t =>
    matchHereF f ps t ||
      match t with
      | [] => false
      | c :: t2 => charMatch pc c && matchStarF f pc ps t2

end

/-- Pattern-matches-a-prefix with adequate fuel. -/
def matchHere (p t : List Char) : Bool :=
  matchHereF (2 * t.length + p.length + 1) p t

/-- Try `matchHere` at every suffix of the text (what `re.search` does for an
unanchored pattern). -/
def searchFrom (p : List Char) : List Char → Bool
  | [] => matchHere p []
  | c :: t => matchHere p (c :: t) || searchFrom p t

/-- Whether `re.search(p, t, re.IGNORECASE)` finds a match. -/
def reSearch (p t : List Char) : Bool :=
  if p.head? = some '^' then matchHere p.tail t else searchFrom p t

/-- One mask entry of `series.str.contains(pat, case=False, na=False)`:
string cells are tested by case-insensitive regex search; non-string cells
(NaN under the `.str` accessor) give `False` via `na=False`. -/
def strContainsMask (pat : String) (v : Value) : Bool :=
  match v with
  | .str s => reSearch pat.toList s.toList
  | _ => false

/-! ## The retrieval methods

`if isin:` / `if company_name:` is Python truthiness: `None` and the empty
string both take the unfiltered branch. -/

/-- Boolean-mask row selection `df[mask]`. -/
def filterRows (df : DataFrame) (p : Row → Bool) : DataFrame :=
  { df with rows := df.rows.filter p }

def get_bond_details (st : DataLoader) (isin : Option String) :
    Except String DataFrame :=
  match st.bond_details with
  | none => .error "Bond data not loaded"
  | some df =>
    match isin with
    | some s =>
      if s = "" then .ok df
      else .ok (filterRows df (fun r => Value.eqStr (getCell r "isin") s))
    | none => .ok df

def get_cashflow_details (st : DataLoader) (isin : Option String) :
    Except String DataFrame :=
  match st.cashflow_details with
  | none => .error "Cashflow data not loaded"
  | some df =>
    match isin with
    | some s =>
      if s = "" then .ok df
      else .ok (filterRows df (fun r => Value.eqStr (getCell r "isin") s))
    | none => .ok df

def get_company_insights (st : DataLoader) (company_name : Option String) :
    Except String DataFrame :=
  match st.company_insights with
  | none => .error "Company data not loaded"
  | some df =>
    match company_name with
    | some s =>
      if s = "" then .ok df
      else .ok (filterRows df (fun r => strContainsMask s (getCell r "company_name")))
    | none => .ok df

/-! ## Row-level lemmas -/

/-- Does the row carry a binding for column `c`? (Always true for the
frame's columns on well-formed pandas data.) -/
def hasCol (r : Row) (c : String) : Bool :=
  r.any (fun p => p.1 == c)

/-- Spec-side well-formedness of a frame: every row binds every column. -/
def WellFormed (df : DataFrame) : Prop :=
  ∀ r ∈ df.rows, ∀ c ∈ df.cols, hasCol r c = true

instance : DecidablePred WellFormed := fun df => by
  unfold WellFormed; infer_instance

theorem setCell_cons (p : String × Value) (r : Row) (c : String) (v : Value) :
    setCell (p :: r) c v = (if p.1 == c then (p.1, v) else p) :: setCell r c v := rfl

theorem hasCol_cons (p : String × Value) (r : Row) (c : String) :
    hasCol (p :: r) c = ((p.1 == c) || hasCol r c) := rfl

theorem getCell_cons (p : String × Value) (r : Row) (c : String) :
    getCell (p :: r) c = if p.1 == c then p.2 else getCell r c := by
  by_cases h : (p.1 == c) = true
  · simp [getCell, List.find?_cons_of_pos _ h, h]
  · simp [getCell, List.find?_cons_of_neg _ h, h]

theorem hasCol_setCell (r : Row) (c : String) (v : Value) (c2 : String) :
    hasCol (setCell r c v) c2 = hasCol r c2 := by
  induction r with
  | nil => rfl
  | cons p r ih =>
    rw [setCell_cons, hasCol_cons, hasCol_cons, ih]
    by_cases h : (p.1 == c) = true <;> simp [h]

theorem getCell_of_not_hasCol {r : Row} {c : String} (h : hasCol r c = false) :
    getCell r c = Value.null := by
  induction r with
  | nil => rfl
  | cons p r ih =>
    rw [hasCol_cons, Bool.or_eq_false_iff] at h
    rw [getCell_cons, h.1]
    simpa using ih h.2

theorem getCell_setCell_ne {c2 c : String} (h : c2 ≠ c) (r : Row) (v : Value) :
    getCell (setCell r c v) c2 = getCell r c2 := by
  induction r with
  | nil => rfl
  | cons p r ih =>
    rw [setCell_cons, getCell_cons, getCell_cons]
    by_cases h1 : (p.1 == c) = true
    · have e1 : p.1 = c := by simpa using h1
      have e2 : (p.1 == c2) = false := by
        rw [e1]
        exact beq_eq_false_iff_ne.mpr (fun hx => h hx.symm)
      simp only [h1, if_true]
      simpa [e2] using ih
    · simp only [h1, if_false]
      by_cases h2 : (p.1 == c2) = true <;> simp [h2, ih]

theorem getCell_setCell_self (r : Row) (c : String) (v : Value) :
    getCell (setCell r c v) c = if hasCol r c then v else Value.null := by
  induction r with
  | nil => rfl
  | cons p r ih =>
    rw [setCell_cons, getCell_cons, hasCol_cons]
    by_cases h1 : (p.1 == c) = true <;> simp [h1, ih]

/-- The key pointwise fact for the coercion passes: when the coercion sends
null to null, setting `f` of the old cell yields `f` of the old cell even on
rows that lack the binding (both sides are then null). -/
theorem getCell_setCell_apply {f : Value → Value} (hf : f Value.null = Value.null)
    (r : Row) (c : String) :
    getCell (setCell r c (f (getCell r c))) c = f (getCell r c) := by
  rw [getCell_setCell_self]
  by_cases h : hasCol r c
  · simp [h]
  · simp only [Bool.not_eq_true] at h
    simp [h, getCell_of_not_hasCol h, hf]

theorem getD_map_of_lt (g : Row → Row) (l : List Row) {i : Nat} (h : i < l.length) :
    (l.map g).getD i [] = g (l.getD i []) := by
  rw [List.getD_eq_getElem?_getD, List.getD_eq_getElem?_getD, List.getElem?_map,
    List.getElem?_eq_getElem h]
  simp

theorem getD_map_of_ge (g : Row → Row) (l : List Row) {i : Nat} (h : l.length ≤ i) :
    (l.map g).getD i [] = [] ∧ l.getD i [] = [] := by
  rw [List.getD_eq_getElem?_getD, List.getD_eq_getElem?_getD,
    List.getElem?_eq_none (by simpa using h), List.getElem?_eq_none h]
  exact ⟨rfl, rfl⟩

/-! ## Coercion-pass lemmas (`processCoerceCols`) -/

theorem mapCells_cols (f : Value → Value) (c : String) (df : DataFrame) :
    (mapCells f c df).cols = df.cols := rfl

theorem mapCells_length (f : Value → Value) (c : String) (df : DataFrame) :
    (mapCells f c df).rows.length = df.rows.length := by
  simp [mapCells]

theorem mapCells_getD (f : Value → Value) (c : String) (df : DataFrame) (i : Nat) :
    (mapCells f c df).rows.getD i [] = setCell (df.rows.getD i []) c (f (getCell (df.rows.getD i []) c)) ∨
      ((mapCells f c df).rows.getD i [] = [] ∧ df.rows.getD i [] = []) := by
  by_cases h : i < df.rows.length
  · left
    simp [mapCells, List.getD, List.getElem?_map]
    rw [List.getElem?_eq_getElem h]
    simp
  · right
    exact getD_map_of_ge (fun r => setCell r c (f (getCell r c))) df.rows
      (Nat.le_of_not_lt h)

theorem mapCells_cell_same {f : Value → Value} (hf : f Value.null = Value.null)
    (c : String) (df : DataFrame) (i : Nat) :
    getCell ((mapCells f c df).rows.getD i []) c = f (getCell (df.rows.getD i []) c) := by
  rcases mapCells_getD f c df i with h | ⟨h1, h2⟩
  · rw [h, getCell_setCell_apply hf]
  · rw [h1, h2]
    simp [getCell, hf]

theorem mapCells_cell_ne {c2 c : String} (h : c2 ≠ c) (f : Value → Value)
    (df : DataFrame) (i : Nat) :
    getCell ((mapCells f c df).rows.getD i []) c2 = getCell (df.rows.getD i []) c2 := by
  rcases mapCells_getD f c df i with hh | ⟨h1, h2⟩
  · rw [hh, getCell_setCell_ne h]
  · rw [h1, h2]

theorem processCoerceCols_cols (f : Value → Value) (cols : List String) (df : DataFrame) :
    (processCoerceCols f cols df).cols = df.cols := by
  induction cols generalizing df with
  | nil => rfl
  | cons c cs ih =>
    simp only [processCoerceCols]
    by_cases h : c ∈ df.cols <;> simp [h, ih, mapCells_cols]

theorem processCoerceCols_notMem {c2 : String} {cols : List String} (h : c2 ∉ cols)
    (f : Value → Value) (df : DataFrame) (i : Nat) :
    getCell ((processCoerceCols f cols df).rows.getD i []) c2 =
      getCell (df.rows.getD i []) c2 := by
  induction cols generalizing df with
  | nil => rfl
  | cons c cs ih =>
    simp only [List.mem_cons, not_or] at h
    simp only [processCoerceCols]
    by_cases hc : c ∈ df.cols
    · simp only [hc, if_true]
      rw [ih h.2, mapCells_cell_ne h.1]
    · simp only [hc, if_false]
      exact ih h.2 df

theorem processCoerceCols_cell (f : Value → Value) (hf : f Value.null = Value.null)
    {cols : List String} (hnd : cols.Nodup) {c : String} (hmem : c ∈ cols)
    {df : DataFrame} (hcol : c ∈ df.cols) (i : Nat) :
    getCell ((processCoerceCols f cols df).rows.getD i []) c =
      f (getCell (df.rows.getD i []) c) := by
  induction cols generalizing df with
  | nil => cases hmem
  | cons c0 cs ih =>
    simp only [List.nodup_cons] at hnd
    simp only [processCoerceCols]
    rcases List.mem_cons.mp hmem with rfl | hmem2
    · simp only [hcol, if_true]
      rw [processCoerceCols_notMem hnd.1 f _ i, mapCells_cell_same hf]
    · by_cases hc0 : c0 ∈ df.cols
      · simp only [hc0, if_true]
        rw [ih hnd.2 hmem2 (by simpa [mapCells_cols] using hcol), mapCells_cell_ne]
        intro hx
        rw [hx] at hmem2
        exact hnd.1 hmem2
      · simp only [hc0, if_false]
        exact ih hnd.2 hmem2 hcol

/-! ## JSON-pass lemmas (`processJsonCols`) -/

theorem jsonCell_error {v : Value} {e : String} (h : jsonCell v = .error e) :
    e = "JSONDecodeError" := by
  cases v with
  | str s =>
    rw [show jsonCell (Value.str s) =
      (if stripChars s.toList ≠ [] then
        (match json_loads s with
          | some j => Except.ok j
          | none => Except.error "JSONDecodeError")
        else Except.ok (Value.obj [])) from rfl] at h
    by_cases ht : stripChars s.toList = []
    · rw [if_neg (not_not_intro ht)] at h
      exact Except.noConfusion h
    · rw [if_pos ht] at h
      cases hj : json_loads s with
      | some j => rw [hj] at h; exact Except.noConfusion h
      | none =>
        rw [hj] at h
        injection h with h
        exact h.symm
  | null => exact Except.noConfusion h
  | num q => exact Except.noConfusion h
  | bool b => exact Except.noConfusion h
  | date y m d => exact Except.noConfusion h
  | obj l => exact Except.noConfusion h
  | arr l => exact Except.noConfusion h

theorem mapCellsExcept_ok {f : Value → Except String Value} {c : String} :
    ∀ {rows rows2 : List Row}, mapCellsExcept f c rows = .ok rows2 →
      rows2.length = rows.length ∧
      ∀ i, i < rows.length →
        ∃ v, f (getCell (rows.getD i []) c) = .ok v ∧
          rows2.getD i [] = setCell (rows.getD i []) c v := by
  intro rows
  induction rows with
  | nil =>
    intro rows2 h
    simp only [mapCellsExcept] at h
    injection h with h
    subst h
    exact ⟨rfl, by intro i hi; cases hi⟩
  | cons r rs ih =>
    intro rows2 h
    simp only [mapCellsExcept] at h
    cases hfv : f (getCell r c) with
    | error e => rw [hfv] at h; exact absurd h (by simp)
    | ok v =>
      rw [hfv] at h
      cases hrs : mapCellsExcept f c rs with
      | error e => rw [hrs] at h; exact absurd h (by simp)
      | ok rs2 =>
        rw [hrs] at h
        injection h with h
        subst h
        rcases ih hrs with ⟨hlen, hcell⟩
        refine ⟨by simp [hlen], ?_⟩
        intro i hi
        match i with
        | 0 => exact ⟨v, hfv, rfl⟩
        | j + 1 =>
          simp only [List.getD_cons_succ]
          exact hcell j (by simpa using hi)

theorem mapCellsExcept_error {f : Value → Except String Value} {c : String} :
    ∀ {rows : List Row} {e : String}, mapCellsExcept f c rows = .error e →
      ∃ v, f v = .error e := by
  intro rows
  induction rows with
  | nil => intro e h; simp [mapCellsExcept] at h
  | cons r rs ih =>
    intro e h
    simp only [mapCellsExcept] at h
    cases hfv : f (getCell r c) with
    | error e2 =>
      rw [hfv] at h
      injection h with h
      exact ⟨_, h ▸ hfv⟩
    | ok v =>
      rw [hfv] at h
      cases hrs : mapCellsExcept f c rs with
      | error e2 =>
        rw [hrs] at h
        injection h with h
        exact h ▸ ih hrs
      | ok rs2 => rw [hrs] at h; exact absurd h (by simp)

theorem applyColumn_ok {f : Value → Except String Value} {c : String}
    {df df2 : DataFrame} (h : applyColumn f c df = .ok df2) :
    df2.cols = df.cols ∧
    df2.rows.length = df.rows.length ∧
    ∀ i, i < df.rows.length →
      ∃ v, f (getCell (df.rows.getD i []) c) = .ok v ∧
        df2.rows.getD i [] = setCell (df.rows.getD i []) c v := by
  simp only [applyColumn] at h
  cases hm : mapCellsExcept f c df.rows with
  | error e => rw [hm] at h; exact absurd h (by simp [Except.map])
  | ok rs =>
    rw [hm] at h
    simp only [Except.map] at h
    injection h with h
    rcases mapCellsExcept_ok hm with ⟨hlen, hcell⟩
    subst h
    exact ⟨rfl, hlen, hcell⟩

theorem applyColumn_error {f : Value → Except String Value} {c : String}
    {df : DataFrame} {e : String} (h : applyColumn f c df = .error e) :
    ∃ v, f v = .error e := by
  simp only [applyColumn] at h
  cases hm : mapCellsExcept f c df.rows with
  | error e2 =>
    rw [hm] at h
    simp only [Except.map] at h
    injection h with h
    exact h ▸ mapCellsExcept_error hm
  | ok rs => rw [hm] at h; exact absurd h (by simp [Except.map])

theorem processJsonCols_error_msg :
    ∀ {cols : List String} {df df2 : DataFrame} {e : String},
      processJsonCols cols df = (.error e, df2) → e = "JSONDecodeError" := by
  intro cols
  induction cols with
  | nil => intro df df2 e h; simp [processJsonCols] at h
  | cons c cs ih =>
    intro df df2 e h
    simp only [processJsonCols] at h
    by_cases hc : c ∈ df.cols
    · rw [if_pos hc] at h
      cases ha : applyColumn jsonCell c df with
      | ok dfa => rw [ha] at h; exact ih h
      | error e2 =>
        rw [ha] at h
        injection h with h1 h2
        injection h1 with h1
        rcases applyColumn_error ha with ⟨v, hv⟩
        exact h1 ▸ jsonCell_error hv
    · rw [if_neg hc] at h
      exact ih h

theorem processJsonCols_ok_shape :
    ∀ {cols : List String} {df df2 : DataFrame},
      processJsonCols cols df = (.ok (), df2) →
      df2.cols = df.cols ∧
      df2.rows.length = df.rows.length ∧
      (∀ i c2, hasCol (df2.rows.getD i []) c2 = hasCol (df.rows.getD i []) c2) ∧
      (∀ c2, c2 ∉ cols → ∀ i,
        getCell (df2.rows.getD i []) c2 = getCell (df.rows.getD i []) c2) := by
  intro cols
  induction cols with
  | nil =>
    intro df df2 h
    simp only [processJsonCols] at h
    injection h with h1 h2
    subst h2
    exact ⟨rfl, rfl, fun i c2 => rfl, fun c2 _ i => rfl⟩
  | cons c cs ih =>
    intro df df2 h
    simp only [processJsonCols] at h
    by_cases hc : c ∈ df.cols
    · rw [if_pos hc] at h
      cases ha : applyColumn jsonCell c df with
      | error e => rw [ha] at h; simp at h
      | ok dfa =>
        rw [ha] at h
        rcases applyColumn_ok ha with ⟨hcols, hlen, hcell⟩
        rcases ih h with ⟨icols, ilen, ihas, iget⟩
        have hgetDa : ∀ i, dfa.rows.getD i [] =
            setCell (df.rows.getD i []) c
              ((jsonCell (getCell (df.rows.getD i []) c)).toOption.getD Value.null) ∨
            (dfa.rows.getD i [] = [] ∧ df.rows.getD i [] = []) := by
          intro i
          by_cases hi : i < df.rows.length
          · rcases hcell i hi with ⟨v, hv, heq⟩
            left
            rw [heq, hv]
            rfl
          · right
            have h1 : df.rows.length ≤ i := Nat.le_of_not_lt hi
            constructor
            · exact List.getD_eq_default _ _ (by omega)
            · exact List.getD_eq_default _ _ h1
        refine ⟨icols.trans hcols, ilen.trans hlen, ?_, ?_⟩
        · intro i c2
          rw [ihas i c2]
          rcases hgetDa i with heq | ⟨h1, h2⟩
          · rw [heq, hasCol_setCell]
          · rw [h1, h2]
        · intro c2 hc2 i
          simp only [List.mem_cons, not_or] at hc2
          rw [iget c2 hc2.2 i]
          rcases hgetDa i with heq | ⟨h1, h2⟩
          · rw [heq, getCell_setCell_ne hc2.1]
          · rw [h1, h2]
    · rw [if_neg hc] at h
      rcases ih h with ⟨icols, ilen, ihas, iget⟩
      refine ⟨icols, ilen, ihas, fun c2 hc2 i => iget c2 ?_ i⟩
      simp only [List.mem_cons, not_or] at hc2
      exact hc2.2

/-- Pointwise description of a successful JSON pass: each cell of a processed
column (present in the frame and bound in each row) ends up as the
`jsonCell` image of the old cell. -/
theorem processJsonCols_ok_cell :
    ∀ {cols : List String} {df df2 : DataFrame},
      processJsonCols cols df = (.ok (), df2) → cols.Nodup →
      ∀ {c : String}, c ∈ cols → c ∈ df.cols →
      (∀ i, i < df.rows.length → hasCol (df.rows.getD i []) c = true) →
      ∀ i, i < df.rows.length →
        ∃ j, jsonCell (getCell (df.rows.getD i []) c) = .ok j ∧
          getCell (df2.rows.getD i []) c = j := by
  intro cols
  induction cols with
  | nil =>
    intro df df2 h hnd c hc
    cases hc
  | cons c0 cs ih =>
    intro df df2 h hnd c hmem hcol hwf i hi
    simp only [processJsonCols] at h
    rw [List.nodup_cons] at hnd
    rcases List.mem_cons.mp hmem with rfl | hmem2
    · rw [if_pos hcol] at h
      cases ha : applyColumn jsonCell c df with
      | error e => rw [ha] at h; exact absurd h (by simp)
      | ok dfa =>
        rw [ha] at h
        rcases applyColumn_ok ha with ⟨hcols, hlen, hcell⟩
        rcases hcell i hi with ⟨v, hv, heq⟩
        refine ⟨v, hv, ?_⟩
        rcases processJsonCols_ok_shape h with ⟨_, _, _, iget⟩
        rw [iget c hnd.1 i, heq, getCell_setCell_self, hwf i hi]
        simp
    · by_cases hc0 : c0 ∈ df.cols
      · rw [if_pos hc0] at h
        cases ha : applyColumn jsonCell c0 df with
        | error e => rw [ha] at h; exact absurd h (by simp)
        | ok dfa =>
          rw [ha] at h
          rcases applyColumn_ok ha with ⟨hcols, hlen, hcell⟩
          have hne : c ≠ c0 := fun hx => hnd.1 (hx ▸ hmem2)
          have hget : getCell (dfa.rows.getD i []) c = getCell (df.rows.getD i []) c := by
            rcases hcell i hi with ⟨v, hv, heq⟩
            rw [heq, getCell_setCell_ne hne]
          have hwf2 : ∀ j, j < dfa.rows.length → hasCol (dfa.rows.getD j []) c = true := by
            intro j hj
            rw [hlen] at hj
            rcases hcell j hj with ⟨v, hv, heq⟩
            rw [heq, hasCol_setCell]
            exact hwf j hj
          have hi2 : i < dfa.rows.length := by rw [hlen]; exact hi
          rcases ih h hnd.2 hmem2 (by rw [hcols]; exact hcol) hwf2 i hi2 with ⟨j, hj1, hj2⟩
          rw [hget] at hj1
          exact ⟨j, hj1, hj2⟩
      · rw [if_neg hc0] at h
        exact ih h hnd.2 hmem2 hcol hwf i hi

/-! ## Literal patterns: regex search coincides with substring containment -/

/-- Characters with a special meaning in Python regular expressions. -/
def regexMeta (c : Char) : Bool :=
  c ∈ [ '.', '^', '$', '*', '+', '?', '\\', '[', ']', '(', ')', '|',
        Char.ofNat 123, Char.ofNat 125 ]

/-- Spec-side predicate, in the spec's words: the filter argument occurs in
the name as a case-insensitive substring. -/
def substrCI (pat s : String) : Prop :=
  (pat.toList.map Char.toLower) <:+: (s.toList.map Char.toLower)

instance (pat s : String) : Decidable (substrCI pat s) := by
  unfold substrCI
  infer_instance

theorem startsWith_nil_left (l : List Char) : ([] : List Char) <+: l :=
  ⟨l, rfl⟩

theorem cons_startsWith_nil {a : Char} {l1 : List Char} :
    ¬ (a :: l1 <+: ([] : List Char)) := by
  rintro ⟨t, ht⟩
  simp at ht

theorem startsWith_cons_cons {a b : Char} {l1 l2 : List Char} :
    (a :: l1 <+: b :: l2) ↔ a = b ∧ l1 <+: l2 := by
  constructor
  · rintro ⟨t, ht⟩
    rw [List.cons_append] at ht
    injection ht with h1 h2
    exact ⟨h1, t, h2⟩
  · rintro ⟨rfl, t, ht⟩
    exact ⟨t, by rw [List.cons_append, ht]⟩

theorem occursWithin_nil {l : List Char} : l <:+: ([] : List Char) ↔ l = [] := by
  constructor
  · rintro ⟨u, v, h⟩
    rcases List.append_eq_nil.mp h with ⟨h1, h2⟩
    exact (List.append_eq_nil.mp h1).2
  · rintro rfl
    exact ⟨[], [], rfl⟩

theorem occursWithin_cons {l : List Char} {a : Char} {l2 : List Char} :
    l <:+: a :: l2 ↔ (l <+: a :: l2) ∨ l <:+: l2 := by
  constructor
  · rintro ⟨u, v, h⟩
    cases u with
    | nil => exact Or.inl ⟨v, by simpa using h⟩
    | cons x u =>
      right
      rw [List.cons_append, List.cons_append] at h
      injection h with h1 h2
      exact ⟨u, v, by simpa using h2⟩
  · rintro (⟨v, h⟩ | ⟨u, v, h⟩)
    · exact ⟨[], v, by simpa using h⟩
    · exact ⟨a :: u, v, by rw [← h]; simp⟩

theorem matchHereF_literal :
    ∀ (fuel : Nat) (p t : List Char), p.length < fuel →
      (∀ c ∈ p, regexMeta c = false) →
      (matchHereF fuel p t = true ↔ (p.map Char.toLower) <+: (t.map Char.toLower))
  | 0, p, t, hf, _ => by omega
  | f + 1, [], t, _, _ => by
    simp [matchHereF, startsWith_nil_left]
  | f + 1, [pc], t, _, h => by
    have hpc : regexMeta pc = false := h pc (by simp)
    have h1 : ¬ pc = '$' := by
      intro hx
      rw [hx] at hpc
      simp [regexMeta] at hpc
    have h2 : (pc == '.') = false := by
      have hd : ¬ pc = '.' := by
        intro hx
        rw [hx] at hpc
        simp [regexMeta] at hpc
      simpa using hd
    cases t with
    | nil =>
      have e : matchHereF (f + 1) [pc] [] = false := by
        show (if pc = '$' then decide (([] : List Char) = []) else false) = false
        rw [if_neg h1]
      rw [e, List.map_cons, List.map_nil]
      constructor
      · intro hx; cases hx
      · intro hx; exact absurd hx cons_startsWith_nil
    | cons c t2 =>
      have e : matchHereF (f + 1) [pc] (c :: t2) = charMatch pc c := by
        show (if pc = '$' then decide ((c :: t2 : List Char) = []) else charMatch pc c) = _
        rw [if_neg h1]
      rw [e]
      simp [charMatch, h2, startsWith_cons_cons, startsWith_nil_left]
  | f + 1, pc :: p2 :: ps, t, hf, h => by
    have hp2 : ¬ p2 = '*' := by
      intro hx
      have hm := h p2 (by simp)
      rw [hx] at hm
      simp [regexMeta] at hm
    have h2 : (pc == '.') = false := by
      have hpc : regexMeta pc = false := h pc (by simp)
      have hd : ¬ pc = '.' := by
        intro hx
        rw [hx] at hpc
        simp [regexMeta] at hpc
      simpa using hd
    cases t with
    | nil =>
      have e : matchHereF (f + 1) (pc :: p2 :: ps) [] = false := by
        show (if p2 = '*' then matchStarF f pc ps [] else false) = false
        rw [if_neg hp2]
      rw [e, List.map_cons, List.map_nil]
      constructor
      · intro hx; cases hx
      · intro hx; exact absurd hx cons_startsWith_nil
    | cons c t2 =>
      have e : matchHereF (f + 1) (pc :: p2 :: ps) (c :: t2) =
          (charMatch pc c && matchHereF f (p2 :: ps) t2) := by
        show (if p2 = '*' then matchStarF f pc ps (c :: t2)
          else charMatch pc c && matchHereF f (p2 :: ps) t2) = _
        rw [if_neg hp2]
      have ihr := matchHereF_literal f (p2 :: ps) t2
        (by simp only [List.length_cons] at hf ⊢; omega)
        (fun x hx => h x (List.mem_cons_of_mem _ hx))
      rw [e]
      simp only [List.map_cons, startsWith_cons_cons, Bool.and_eq_true, charMatch, h2,
        Bool.false_or, beq_iff_eq, ihr]

theorem matchHere_literal (p t : List Char) (h : ∀ c ∈ p, regexMeta c = false) :
    matchHere p t = true ↔ (p.map Char.toLower) <+: (t.map Char.toLower) :=
  matchHereF_literal (2 * t.length + p.length + 1) p t (by omega) h

theorem searchFrom_literal :
    ∀ (t p : List Char), (∀ c ∈ p, regexMeta c = false) →
      (searchFrom p t = true ↔ (p.map Char.toLower) <:+: (t.map Char.toLower))
  | [], p, h => by
    rw [show searchFrom p [] = matchHere p [] from rfl, matchHere_literal p [] h]
    constructor
    · rintro ⟨v, hv⟩
      exact ⟨[], v, by simpa using hv⟩
    · intro hx
      have h0 := occursWithin_nil.mp (by simpa using hx)
      rw [h0]
      try exact startsWith_nil_left _
  | c :: t2, p, h => by
    have ih := searchFrom_literal t2 p h
    rw [show searchFrom p (c :: t2) = (matchHere p (c :: t2) || searchFrom p t2) from rfl,
      Bool.or_eq_true, matchHere_literal p (c :: t2) h, ih, List.map_cons, occursWithin_cons]

theorem reSearch_literal {p s : String} (h : ∀ c ∈ p.toList, regexMeta c = false) :
    reSearch p.toList s.toList = true ↔ substrCI p s := by
  have hhead : ¬ (p.toList.head? = some '^') := by
    cases hp : p.toList with
    | nil => simp
    | cons c cs =>
      simp only [List.head?_cons, Option.some.injEq]
      intro hx
      have hc := h c (by rw [hp]; simp)
      rw [hx] at hc
      simp [regexMeta] at hc
  rw [reSearch, if_neg hhead]
  exact searchFrom_literal s.toList p.toList h

/-! ## Missing-column helper lemmas -/

theorem missingCols_mem (required : List String) (df : DataFrame) (c : String) :
    c ∈ missingCols required df ↔ c ∈ required ∧ c ∉ df.cols := by
  simp [missingCols, List.mem_filter, List.elem_iff]

theorem missingCols_eq_nil (required : List String) (df : DataFrame) :
    missingCols required df = [] ↔ ∀ c ∈ required, c ∈ df.cols := by
  simp [missingCols, List.filter_eq_nil_iff, List.elem_iff]

theorem missingMsg_ne_json (ms : List String) : missingMsg ms ≠ "JSONDecodeError" := by
  intro h
  have hl := congrArg String.length h
  simp only [missingMsg, String.length_append] at hl
  have h26 : ( "Missing required columns: " : String).length = 26 := rfl
  have h15 : ( "JSONDecodeError" : String).length = 15 := rfl
  omega

/-! ## Concrete fixtures used by witnesses and counterexamples -/

def bondRow1 : Row :=
  [ ( "isin", Value.str "INE000A01011"), ( "company_name", Value.str "Tata Motors"),
    ( "issue_size", Value.num 1000), ( "allotment_date", Value.str "01-01-2020"),
    ( "maturity_date", Value.str "01-01-2030"),
    ( "issuer_details", Value.str " \x7b\"rating\": \"AA\"\x7d "),
    ( "instrument_details", Value.str ""),
    ( "coupon_details", Value.null) ]

/-- A well-formed bond table whose JSON cells all normalize. -/
def bondOkTbl : DataFrame := { cols := bondRequiredColumns, rows := [ bondRow1 ] }

/-- Same row but with malformed JSON in `instrument_details`. -/
def bondBadRow : Row := setCell bondRow1 "instrument_details" (Value.str "\x7bnope")

def bondBadTbl : DataFrame := { cols := bondRequiredColumns, rows := [ bondBadRow ] }

/-- A bond table missing six of the eight required columns. -/
def bondMissingTbl : DataFrame := { cols := [ "isin", "company_name" ], rows := [] }

def cashRow1 : Row :=
  [ ( "isin", Value.str "INE000A01011"), ( "cash_flow_date", Value.str "05-03-2023"),
    ( "cash_flow_amount", Value.str "123.45"), ( "record_date", Value.str "not-a-date"),
    ( "principal_amount", Value.str "abc") ]

def cashTbl : DataFrame :=
  { cols := [ "isin", "cash_flow_date", "cash_flow_amount", "record_date",
              "principal_amount" ],
    rows := [ cashRow1 ] }

/-- A one-row stored table keyed by a single ISIN. -/
def isinTbl : DataFrame :=
  { cols := [ "isin" ], rows := [ [ ( "isin", Value.str "INE000A01011") ] ] }

def coRow1 : Row :=
  [ ( "company_name", Value.str "abc"), ( "company_industry", Value.str "Steel") ]

def coRow2 : Row :=
  [ ( "company_name", Value.null), ( "company_industry", Value.str "Power") ]

def coTbl : DataFrame := { cols := companyRequiredColumns, rows := [ coRow1, coRow2 ] }

/-- A loader with all three tables populated (for retrieval fixtures). -/
def stLoaded : DataLoader :=
  { bond_details := some isinTbl, cashflow_details := some isinTbl,
    company_insights := some coTbl }

/-! ## Load outcome helpers -/

theorem load_bond_data_state (st : DataLoader) (df : DataFrame)
    {r : Except String Unit} {d : DataFrame} {s2 : DataLoader}
    (h : load_bond_data st df = (r, d, s2)) :
    ((∃ e, r = .error e) ∧ s2 = st) ∨
      (r = .ok () ∧ s2 = { st with bond_details := some d }) := by
  unfold load_bond_data at h
  by_cases hm : missingCols bondRequiredColumns df ≠ []
  · rw [if_pos hm] at h
    simp only [Prod.mk.injEq] at h
    exact Or.inl ⟨⟨_, h.1.symm⟩, h.2.2.symm⟩
  · rw [if_neg hm] at h
    cases hp : processJsonCols bondJsonColumns df with
    | mk res dfp =>
      rw [hp] at h
      cases res with
      | ok u =>
        cases u
        simp only [Prod.mk.injEq] at h
        exact Or.inr ⟨h.1.symm, by rw [← h.2.2, h.2.1]⟩
      | error e =>
        simp only [Prod.mk.injEq] at h
        exact Or.inl ⟨⟨_, h.1.symm⟩, h.2.2.symm⟩

theorem load_cashflow_data_state (st : DataLoader) (df : DataFrame)
    {r : Except String Unit} {d : DataFrame} {s2 : DataLoader}
    (h : load_cashflow_data st df = (r, d, s2)) :
    ((∃ e, r = .error e) ∧ s2 = st) ∨
      (r = .ok () ∧ s2 = { st with cashflow_details := some d }) := by
  unfold load_cashflow_data at h
  by_cases hm : missingCols cashflowRequiredColumns df ≠ []
  · rw [if_pos hm] at h
    simp only [Prod.mk.injEq] at h
    exact Or.inl ⟨⟨_, h.1.symm⟩, h.2.2.symm⟩
  · rw [if_neg hm] at h
    simp only [Prod.mk.injEq] at h
    exact Or.inr ⟨h.1.symm, by rw [← h.2.2, h.2.1]⟩

theorem load_company_data_state (st : DataLoader) (df : DataFrame)
    {r : Except String Unit} {d : DataFrame} {s2 : DataLoader}
    (h : load_company_data st df = (r, d, s2)) :
    ((∃ e, r = .error e) ∧ s2 = st) ∨
      (r = .ok () ∧ s2 = { st with company_insights := some d }) := by
  unfold load_company_data at h
  by_cases hm : missingCols companyRequiredColumns df ≠ []
  · rw [if_pos hm] at h
    simp only [Prod.mk.injEq] at h
    exact Or.inl ⟨⟨_, h.1.symm⟩, h.2.2.symm⟩
  · rw [if_neg hm] at h
    cases hp : processJsonCols companyJsonColumns df with
    | mk res dfp =>
      rw [hp] at h
      cases res with
      | ok u =>
        cases u
        simp only [Prod.mk.injEq] at h
        exact Or.inr ⟨h.1.symm, by rw [← h.2.2, h.2.1]⟩
      | error e =>
        simp only [Prod.mk.injEq] at h
        exact Or.inl ⟨⟨_, h.1.symm⟩, h.2.2.symm⟩

/-! ## Claim theorems -/

/-- C3: for every load call, a raised error (missing column or malformed
JSON cell) leaves the stored state exactly as before the call and propagates
to the caller; a successful call replaces the corresponding stored table with
the normalized input returned alongside. -/
theorem load_atomic_state (st : DataLoader) (df : DataFrame) :
    (∀ e d s2, load_bond_data st df = (.error e, d, s2) → s2 = st) ∧
    (∀ d s2, load_bond_data st df = (.ok (), d, s2) →
      s2 = { st with bond_details := some d }) ∧
    (∀ e d s2, load_cashflow_data st df = (.error e, d, s2) → s2 = st) ∧
    (∀ d s2, load_cashflow_data st df = (.ok (), d, s2) →
      s2 = { st with cashflow_details := some d }) ∧
    (∀ e d s2, load_company_data st df = (.error e, d, s2) → s2 = st) ∧
    (∀ d s2, load_company_data st df = (.ok (), d, s2) →
      s2 = { st with company_insights := some d }) := by
  refine ⟨?_, ?_, ?_, ?_, ?_, ?_⟩
  · intro e d s2 h
    rcases load_bond_data_state st df h with ⟨_, h2⟩ | ⟨h1, _⟩
    · exact h2
    · cases h1
  · intro d s2 h
    rcases load_bond_data_state st df h with ⟨⟨e, h1⟩, _⟩ | ⟨_, h2⟩
    · cases h1
    · exact h2
  · intro e d s2 h
    rcases load_cashflow_data_state st df h with ⟨_, h2⟩ | ⟨h1, _⟩
    · exact h2
    · cases h1
  · intro d s2 h
    rcases load_cashflow_data_state st df h with ⟨⟨e, h1⟩, _⟩ | ⟨_, h2⟩
    · cases h1
    · exact h2
  · intro e d s2 h
    rcases load_company_data_state st df h with ⟨_, h2⟩ | ⟨h1, _⟩
    · exact h2
    · cases h1
  · intro d s2 h
    rcases load_company_data_state st df h with ⟨⟨e, h1⟩, _⟩ | ⟨_, h2⟩
    · cases h1
    · exact h2

/-- C3 witness: a concrete failing bond load (malformed JSON cell) leaves a
populated store untouched, and a concrete successful bond load replaces the
stored bond table. -/
theorem load_atomic_state_witness :
    (∀ e d s2, load_bond_data stLoaded bondBadTbl = (.error e, d, s2) → s2 = stLoaded) ∧
    (∀ d s2, load_bond_data stLoaded bondOkTbl = (.ok (), d, s2) →
      s2 = { stLoaded with bond_details := some d }) ∧
    (load_bond_data stLoaded bondBadTbl).1 = .error "JSONDecodeError" ∧
    (load_bond_data stLoaded bondOkTbl).1 = .ok () :=
  ⟨(load_atomic_state stLoaded bondBadTbl).1,
   (load_atomic_state stLoaded bondOkTbl).2.1,
   by rfl, by rfl⟩

/-- C9: a second successful load of the same table kind stores exactly the
second normalized frame (full replacement, no merge with the first), and any
load call — of whatever outcome — leaves the other two stored tables
unchanged. -/
theorem load_replaces_and_preserves_others (st : DataLoader) (df1 df2 : DataFrame) :
    (∀ d1 s1 d2 s2, load_bond_data st df1 = (.ok (), d1, s1) →
      load_bond_data s1 df2 = (.ok (), d2, s2) → s2.bond_details = some d2) ∧
    (∀ d1 s1 d2 s2, load_cashflow_data st df1 = (.ok (), d1, s1) →
      load_cashflow_data s1 df2 = (.ok (), d2, s2) → s2.cashflow_details = some d2) ∧
    (∀ d1 s1 d2 s2, load_company_data st df1 = (.ok (), d1, s1) →
      load_company_data s1 df2 = (.ok (), d2, s2) → s2.company_insights = some d2) ∧
    (∀ r d s2, load_bond_data st df1 = (r, d, s2) →
      s2.cashflow_details = st.cashflow_details ∧
      s2.company_insights = st.company_insights) ∧
    (∀ r d s2, load_cashflow_data st df1 = (r, d, s2) →
      s2.bond_details = st.bond_details ∧
      s2.company_insights = st.company_insights) ∧
    (∀ r d s2, load_company_data st df1 = (r, d, s2) →
      s2.bond_details = st.bond_details ∧
      s2.cashflow_details = st.cashflow_details) := by
  refine ⟨?_, ?_, ?_, ?_, ?_, ?_⟩
  · intro d1 s1 d2 s2 h1 h2
    rcases load_bond_data_state s1 df2 h2 with ⟨⟨e, he⟩, _⟩ | ⟨_, hs⟩
    · cases he
    · rw [hs]
  · intro d1 s1 d2 s2 h1 h2
    rcases load_cashflow_data_state s1 df2 h2 with ⟨⟨e, he⟩, _⟩ | ⟨_, hs⟩
    · cases he
    · rw [hs]
  · intro d1 s1 d2 s2 h1 h2
    rcases load_company_data_state s1 df2 h2 with ⟨⟨e, he⟩, _⟩ | ⟨_, hs⟩
    · cases he
    · rw [hs]
  · intro r d s2 h
    rcases load_bond_data_state st df1 h with ⟨_, hs⟩ | ⟨_, hs⟩ <;> rw [hs] <;> exact ⟨rfl, rfl⟩
  · intro r d s2 h
    rcases load_cashflow_data_state st df1 h with ⟨_, hs⟩ | ⟨_, hs⟩ <;> rw [hs] <;> exact ⟨rfl, rfl⟩
  · intro r d s2 h
    rcases load_company_data_state st df1 h with ⟨_, hs⟩ | ⟨_, hs⟩ <;> rw [hs] <;> exact ⟨rfl, rfl⟩

/-- C9 witness: two concrete successful bond loads in sequence store exactly
the second normalized table, and a bond load leaves the other stored tables
of a populated store unchanged. -/
theorem load_replaces_and_preserves_others_witness :
    ((load_bond_data (load_bond_data DataLoader.init bondOkTbl).2.2 bondOkTbl).2.2).bond_details =
      some ((load_bond_data (load_bond_data DataLoader.init bondOkTbl).2.2 bondOkTbl).2.1) ∧
    ((load_bond_data stLoaded bondOkTbl).2.2).cashflow_details = stLoaded.cashflow_details ∧
    ((load_bond_data stLoaded bondOkTbl).2.2).company_insights = stLoaded.company_insights := by
  have h1 := (load_replaces_and_preserves_others DataLoader.init bondOkTbl bondOkTbl).1
    (load_bond_data DataLoader.init bondOkTbl).2.1
    (load_bond_data DataLoader.init bondOkTbl).2.2
    (load_bond_data (load_bond_data DataLoader.init bondOkTbl).2.2 bondOkTbl).2.1
    (load_bond_data (load_bond_data DataLoader.init bondOkTbl).2.2 bondOkTbl).2.2
    (by rfl) (by rfl)
  have h2 := (load_replaces_and_preserves_others stLoaded bondOkTbl bondOkTbl).2.2.2.1
    (load_bond_data stLoaded bondOkTbl).1
    (load_bond_data stLoaded bondOkTbl).2.1
    (load_bond_data stLoaded bondOkTbl).2.2 (by rfl)
  exact ⟨h1, h2.1, h2.2⟩

/-- C5: for each table kind, a load with any required column absent fails
with a `ValueError` naming exactly the missing columns (the required-column
list filtered to those absent, joined in order), leaving both the caller's
frame and the stored state untouched (no partial load); when every required
column is present, no missing-column error can arise (the only other failure
is the JSON decode error of bond/company loads). -/
theorem load_validates_required_columns (st : DataLoader) (df : DataFrame) :
    (∀ required c, c ∈ missingCols required df ↔ c ∈ required ∧ c ∉ df.cols) ∧
    (missingCols bondRequiredColumns df ≠ [] →
      load_bond_data st df =
        (.error (missingMsg (missingCols bondRequiredColumns df)), df, st)) ∧
    (missingCols cashflowRequiredColumns df ≠ [] →
      load_cashflow_data st df =
        (.error (missingMsg (missingCols cashflowRequiredColumns df)), df, st)) ∧
    (missingCols companyRequiredColumns df ≠ [] →
      load_company_data st df =
        (.error (missingMsg (missingCols companyRequiredColumns df)), df, st)) ∧
    (missingCols bondRequiredColumns df = [] →
      ∀ ms, (load_bond_data st df).1 ≠ .error (missingMsg ms)) ∧
    (missingCols cashflowRequiredColumns df = [] →
      ∀ ms, (load_cashflow_data st df).1 ≠ .error (missingMsg ms)) ∧
    (missingCols companyRequiredColumns df = [] →
      ∀ ms, (load_company_data st df).1 ≠ .error (missingMsg ms)) := by
  refine ⟨fun required c => missingCols_mem required df c, ?_, ?_, ?_, ?_, ?_, ?_⟩
  · intro hm
    unfold load_bond_data
    rw [if_pos hm]
  · intro hm
    unfold load_cashflow_data
    rw [if_pos hm]
  · intro hm
    unfold load_company_data
    rw [if_pos hm]
  · intro hm ms h
    unfold load_bond_data at h
    rw [if_neg (not_not_intro hm)] at h
    cases hp : processJsonCols bondJsonColumns df with
    | mk res dfp =>
      rw [hp] at h
      cases res with
      | ok u => exact Except.noConfusion h
      | error e =>
        injection h with h
        exact missingMsg_ne_json ms (h ▸ processJsonCols_error_msg hp)
  · intro hm ms h
    unfold load_cashflow_data at h
    rw [if_neg (not_not_intro hm)] at h
    exact Except.noConfusion h
  · intro hm ms h
    unfold load_company_data at h
    rw [if_neg (not_not_intro hm)] at h
    cases hp : processJsonCols companyJsonColumns df with
    | mk res dfp =>
      rw [hp] at h
      cases res with
      | ok u => exact Except.noConfusion h
      | error e =>
        injection h with h
        exact missingMsg_ne_json ms (h ▸ processJsonCols_error_msg hp)

/-- C5 witness: a concrete bond table lacking six required columns fails with
exactly those six named, in required order; a complete cashflow table never
sees a missing-column error. -/
theorem load_validates_required_columns_witness :
    missingCols bondRequiredColumns bondMissingTbl ≠ [] ∧
    load_bond_data DataLoader.init bondMissingTbl =
      (.error (missingMsg (missingCols bondRequiredColumns bondMissingTbl)),
        bondMissingTbl, DataLoader.init) ∧
    missingCols bondRequiredColumns bondMissingTbl =
      [ "issue_size", "allotment_date", "maturity_date", "issuer_details",
        "instrument_details", "coupon_details" ] ∧
    missingCols cashflowRequiredColumns cashTbl = [] ∧
    (∀ ms, (load_cashflow_data DataLoader.init cashTbl).1 ≠ .error (missingMsg ms)) :=
  ⟨by decide,
   (load_validates_required_columns DataLoader.init bondMissingTbl).2.1 (by decide),
   by decide, by decide,
   (load_validates_required_columns DataLoader.init cashTbl).2.2.2.2.2.1 (by decide)⟩

/-! Retrieval helpers -/

theorem get_bond_details_of_some {st : DataLoader} {d : DataFrame}
    (h : st.bond_details = some d) (s : String) :
    get_bond_details st (some s) =
      if s = "" then .ok d
      else .ok (filterRows d (fun r => Value.eqStr (getCell r "isin") s)) := by
  unfold get_bond_details
  rw [h]

theorem get_cashflow_details_of_some {st : DataLoader} {d : DataFrame}
    (h : st.cashflow_details = some d) (s : String) :
    get_cashflow_details st (some s) =
      if s = "" then .ok d
      else .ok (filterRows d (fun r => Value.eqStr (getCell r "isin") s)) := by
  unfold get_cashflow_details
  rw [h]

theorem get_company_insights_of_some {st : DataLoader} {d : DataFrame}
    (h : st.company_insights = some d) (s : String) :
    get_company_insights st (some s) =
      if s = "" then .ok d
      else .ok (filterRows d (fun r => strContainsMask s (getCell r "company_name"))) := by
  unfold get_company_insights
  rw [h]

theorem get_bond_details_ne_error {st : DataLoader} {d : DataFrame}
    (h : st.bond_details = some d) (q : Option String) (e : String) :
    get_bond_details st q ≠ .error e := by
  intro hx
  cases q with
  | none =>
    unfold get_bond_details at hx
    rw [h] at hx
    exact Except.noConfusion hx
  | some s =>
    rw [get_bond_details_of_some h s] at hx
    by_cases hs : s = ""
    · rw [if_pos hs] at hx
      exact Except.noConfusion hx
    · rw [if_neg hs] at hx
      exact Except.noConfusion hx

theorem get_cashflow_details_ne_error {st : DataLoader} {d : DataFrame}
    (h : st.cashflow_details = some d) (q : Option String) (e : String) :
    get_cashflow_details st q ≠ .error e := by
  intro hx
  cases q with
  | none =>
    unfold get_cashflow_details at hx
    rw [h] at hx
    exact Except.noConfusion hx
  | some s =>
    rw [get_cashflow_details_of_some h s] at hx
    by_cases hs : s = ""
    · rw [if_pos hs] at hx
      exact Except.noConfusion hx
    · rw [if_neg hs] at hx
      exact Except.noConfusion hx

theorem get_company_insights_ne_error {st : DataLoader} {d : DataFrame}
    (h : st.company_insights = some d) (q : Option String) (e : String) :
    get_company_insights st q ≠ .error e := by
  intro hx
  cases q with
  | none =>
    unfold get_company_insights at hx
    rw [h] at hx
    exact Except.noConfusion hx
  | some s =>
    rw [get_company_insights_of_some h s] at hx
    by_cases hs : s = ""
    · rw [if_pos hs] at hx
      exact Except.noConfusion hx
    · rw [if_neg hs] at hx
      exact Except.noConfusion hx

/-- C6: each retrieval method raises its "not loaded" `ValueError` exactly
while the corresponding table is still unset, and after any successful load
of that table no retrieval error is possible. -/
theorem retrieval_requires_load (st : DataLoader) (q : Option String) :
    (st.bond_details = none → get_bond_details st q = .error "Bond data not loaded") ∧
    (st.cashflow_details = none →
      get_cashflow_details st q = .error "Cashflow data not loaded") ∧
    (st.company_insights = none →
      get_company_insights st q = .error "Company data not loaded") ∧
    (∀ df d s2, load_bond_data st df = (.ok (), d, s2) →
      ∀ e, get_bond_details s2 q ≠ .error e) ∧
    (∀ df d s2, load_cashflow_data st df = (.ok (), d, s2) →
      ∀ e, get_cashflow_details s2 q ≠ .error e) ∧
    (∀ df d s2, load_company_data st df = (.ok (), d, s2) →
      ∀ e, get_company_insights s2 q ≠ .error e) := by
  refine ⟨?_, ?_, ?_, ?_, ?_, ?_⟩
  · intro h
    unfold get_bond_details
    rw [h]
  · intro h
    unfold get_cashflow_details
    rw [h]
  · intro h
    unfold get_company_insights
    rw [h]
  · intro df d s2 h e
    rcases load_bond_data_state st df h with ⟨⟨e2, he⟩, _⟩ | ⟨_, hs⟩
    · exact Except.noConfusion he
    · exact get_bond_details_ne_error (show s2.bond_details = some d by rw [hs]) q e
  · intro df d s2 h e
    rcases load_cashflow_data_state st df h with ⟨⟨e2, he⟩, _⟩ | ⟨_, hs⟩
    · exact Except.noConfusion he
    · exact get_cashflow_details_ne_error (show s2.cashflow_details = some d by rw [hs]) q e
  · intro df d s2 h e
    rcases load_company_data_state st df h with ⟨⟨e2, he⟩, _⟩ | ⟨_, hs⟩
    · exact Except.noConfusion he
    · exact get_company_insights_ne_error (show s2.company_insights = some d by rw [hs]) q e

/-- C6 witness: on a fresh loader every retrieval raises its "not loaded"
error, and after a concrete successful bond load the bond retrieval cannot
error. -/
theorem retrieval_requires_load_witness :
    get_bond_details DataLoader.init none = .error "Bond data not loaded" ∧
    get_cashflow_details DataLoader.init none = .error "Cashflow data not loaded" ∧
    get_company_insights DataLoader.init none = .error "Company data not loaded" ∧
    ∀ e, get_bond_details (load_bond_data DataLoader.init bondOkTbl).2.2 none ≠ .error e :=
  ⟨(retrieval_requires_load DataLoader.init none).1 rfl,
   (retrieval_requires_load DataLoader.init none).2.1 rfl,
   (retrieval_requires_load DataLoader.init none).2.2.1 rfl,
   (retrieval_requires_load DataLoader.init none).2.2.2.1 bondOkTbl
     (load_bond_data DataLoader.init bondOkTbl).2.1
     (load_bond_data DataLoader.init bondOkTbl).2.2 (by rfl)⟩

/-- Shape of a successful cashflow load: both coercion passes ran on the
caller's frame and the required columns were all present. -/
theorem load_cashflow_data_ok {st : DataLoader} {df d : DataFrame} {s2 : DataLoader}
    (h : load_cashflow_data st df = (.ok (), d, s2)) :
    missingCols cashflowRequiredColumns df = [] ∧
    d = processCoerceCols toNumericCell numericColumns
      (processCoerceCols toDateCell dateColumns df) := by
  unfold load_cashflow_data at h
  by_cases hm : missingCols cashflowRequiredColumns df = []
  · rw [if_neg (not_not_intro hm)] at h
    simp only [Prod.mk.injEq] at h
    exact ⟨hm, h.2.1.symm⟩
  · rw [if_pos hm] at h
    simp only [Prod.mk.injEq] at h
    exact absurd h.1 (by simp)

/-- C7: date-column cells of a cashflow load: the in-format example
`"05-03-2023"` becomes the calendar date 5 March 2023 and `"not-a-date"`
becomes null; every cell coerces to null or to a calendar date (never an
exception — a cashflow load with its required columns present always
succeeds); and the loaded frame's `cash_flow_date` cells are exactly the
`toDateCell` images of the input cells. -/
theorem cashflow_date_coercion (st : DataLoader) (df : DataFrame) :
    toDateCell (Value.str "05-03-2023") = Value.date 2023 3 5 ∧
    toDateCell (Value.str "not-a-date") = Value.null ∧
    (∀ v, toDateCell v = Value.null ∨ ∃ y m d, toDateCell v = Value.date y m d) ∧
    (missingCols cashflowRequiredColumns df = [] →
      (load_cashflow_data st df).1 = .ok ()) ∧
    (∀ d s2, load_cashflow_data st df = (.ok (), d, s2) → ∀ i,
      getCell (d.rows.getD i []) "cash_flow_date" =
        toDateCell (getCell (df.rows.getD i []) "cash_flow_date")) := by
  refine ⟨by rfl, by rfl, ?_, ?_, ?_⟩
  · intro v
    cases v with
    | str s =>
      cases hp : parseDMY s with
      | none => left; simp [toDateCell, hp]
      | some ymd => right; exact ⟨ymd.1, ymd.2.1, ymd.2.2, by simp [toDateCell, hp]⟩
    | date y m d => right; exact ⟨y, m, d, rfl⟩
    | null => left; rfl
    | num q => left; rfl
    | bool b => left; rfl
    | obj l => left; rfl
    | arr l => left; rfl
  · intro hm
    unfold load_cashflow_data
    rw [if_neg (not_not_intro hm)]
  · intro d s2 h i
    rcases load_cashflow_data_ok h with ⟨hm, hd⟩
    have hreq : "cash_flow_date" ∈ df.cols :=
      (missingCols_eq_nil cashflowRequiredColumns df).mp hm "cash_flow_date" (by decide)
    rw [hd,
      processCoerceCols_notMem (by decide) toNumericCell
        (processCoerceCols toDateCell dateColumns df) i,
      processCoerceCols_cell toDateCell rfl (by decide) (by decide) hreq i]

/-- C7 witness: the concrete cashflow load succeeds, its `cash_flow_date`
cell is the parsed 5 March 2023, and the unparseable `record_date` cell
coerced to null. -/
theorem cashflow_date_coercion_witness :
    (load_cashflow_data DataLoader.init cashTbl).1 = .ok () ∧
    getCell ((load_cashflow_data DataLoader.init cashTbl).2.1.rows.getD 0 [])
      "cash_flow_date" = Value.date 2023 3 5 ∧
    getCell ((load_cashflow_data DataLoader.init cashTbl).2.1.rows.getD 0 [])
      "record_date" = Value.null := by
  have h := cashflow_date_coercion DataLoader.init cashTbl
  refine ⟨h.2.2.2.1 (by decide), ?_, by rfl⟩
  rw [h.2.2.2.2 (load_cashflow_data DataLoader.init cashTbl).2.1
    (load_cashflow_data DataLoader.init cashTbl).2.2 (by rfl) 0]
  rfl

/-- C8: numeric-column cells of a cashflow load: the numeric string
`"123.45"` becomes the number 123.45 and `"abc"` becomes null; every cell
coerces to null or to a number (never an exception — the load succeeds once
its required columns are present); and the loaded frame's
`cash_flow_amount` cells are exactly the `toNumericCell` images of the input
cells. -/
theorem cashflow_numeric_coercion (st : DataLoader) (df : DataFrame) :
    toNumericCell (Value.str "123.45") = Value.num (123.45 : Rat) ∧
    toNumericCell (Value.str "abc") = Value.null ∧
    (∀ v, toNumericCell v = Value.null ∨ ∃ q, toNumericCell v = Value.num q) ∧
    (missingCols cashflowRequiredColumns df = [] →
      (load_cashflow_data st df).1 = .ok ()) ∧
    (∀ d s2, load_cashflow_data st df = (.ok (), d, s2) → ∀ i,
      getCell (d.rows.getD i []) "cash_flow_amount" =
        toNumericCell (getCell (df.rows.getD i []) "cash_flow_amount")) := by
  refine ⟨?_, by rfl, ?_, ?_, ?_⟩
  · rw [show toNumericCell (Value.str "123.45") = Value.num (ratTimes10 12345 (-2)) from rfl,
      show ratTimes10 12345 (-2) = (12345 : Rat) / 10 ^ (2 : Nat) from rfl]
    norm_num
  · intro v
    cases v with
    | str s =>
      cases hp : parseDecimal s with
      | none => left; simp [toNumericCell, hp]
      | some q => right; exact ⟨q, by simp [toNumericCell, hp]⟩
    | num q => right; exact ⟨q, rfl⟩
    | bool b => right; exact ⟨if b then 1 else 0, rfl⟩
    | null => left; rfl
    | date y m d => left; rfl
    | obj l => left; rfl
    | arr l => left; rfl
  · intro hm
    unfold load_cashflow_data
    rw [if_neg (not_not_intro hm)]
  · intro d s2 h i
    rcases load_cashflow_data_ok h with ⟨hm, hd⟩
    have hreq : "cash_flow_amount" ∈ df.cols :=
      (missingCols_eq_nil cashflowRequiredColumns df).mp hm "cash_flow_amount" (by decide)
    rw [hd,
      processCoerceCols_cell toNumericCell rfl (by decide) (by decide)
        (by rw [processCoerceCols_cols]; exact hreq) i,
      processCoerceCols_notMem (by decide) toDateCell df i]

/-- C8 witness: the concrete cashflow load turns `"123.45"` into the number
123.45 and the unparseable `principal_amount` cell into null. -/
theorem cashflow_numeric_coercion_witness :
    (load_cashflow_data DataLoader.init cashTbl).1 = .ok () ∧
    getCell ((load_cashflow_data DataLoader.init cashTbl).2.1.rows.getD 0 [])
      "cash_flow_amount" = Value.num (123.45 : Rat) ∧
    getCell ((load_cashflow_data DataLoader.init cashTbl).2.1.rows.getD 0 [])
      "principal_amount" = Value.null := by
  have h := cashflow_numeric_coercion DataLoader.init cashTbl
  refine ⟨h.2.2.2.1 (by decide), ?_, by rfl⟩
  rw [h.2.2.2.2 (load_cashflow_data DataLoader.init cashTbl).2.1
    (load_cashflow_data DataLoader.init cashTbl).2.2 (by rfl) 0]
  exact h.1

/-- Shape of a successful bond load. -/
theorem load_bond_data_ok {st : DataLoader} {df d : DataFrame} {s2 : DataLoader}
    (h : load_bond_data st df = (.ok (), d, s2)) :
    missingCols bondRequiredColumns df = [] ∧
    processJsonCols bondJsonColumns df = (.ok (), d) := by
  unfold load_bond_data at h
  by_cases hm : missingCols bondRequiredColumns df = []
  · rw [if_neg (not_not_intro hm)] at h
    cases hp : processJsonCols bondJsonColumns df with
    | mk res dfp =>
      rw [hp] at h
      cases res with
      | ok u =>
        cases u
        simp only [Prod.mk.injEq] at h
        exact ⟨hm, by rw [h.2.1]⟩
      | error e => exact absurd h (by simp)
  · rw [if_pos hm] at h
    exact absurd h (by simp)

/-- Shape of a successful company load. -/
theorem load_company_data_ok {st : DataLoader} {df d : DataFrame} {s2 : DataLoader}
    (h : load_company_data st df = (.ok (), d, s2)) :
    missingCols companyRequiredColumns df = [] ∧
    processJsonCols companyJsonColumns df = (.ok (), d) := by
  unfold load_company_data at h
  by_cases hm : missingCols companyRequiredColumns df = []
  · rw [if_neg (not_not_intro hm)] at h
    cases hp : processJsonCols companyJsonColumns df with
    | mk res dfp =>
      rw [hp] at h
      cases res with
      | ok u =>
        cases u
        simp only [Prod.mk.injEq] at h
        exact ⟨hm, by rw [h.2.1]⟩
      | error e => exact absurd h (by simp)
  · rw [if_pos hm] at h
    exact absurd h (by simp)

theorem getD_mem {l : List Row} {i : Nat} (h : i < l.length) : l.getD i [] ∈ l := by
  rw [List.getD_eq_getElem?_getD, List.getElem?_eq_getElem h]
  exact List.getElem_mem h

/-- C4: JSON cell normalization during bond/company loads: a blank or empty
string cell and every non-string cell become the empty dict; a non-blank
string cell becomes exactly what `json.loads` parses it to, and malformed
JSON text surfaces as the raised decode error — also out of the whole load,
as the concrete malformed bond table shows. -/
theorem json_cell_normalization (s : String) :
    (stripChars s.toList = [] → jsonCell (Value.str s) = .ok (Value.obj [])) ∧
    (∀ v : Value, (∀ t, v ≠ Value.str t) → jsonCell v = .ok (Value.obj [])) ∧
    (∀ j, stripChars s.toList ≠ [] → json_loads s = some j →
      jsonCell (Value.str s) = .ok j) ∧
    (stripChars s.toList ≠ [] → json_loads s = none →
      jsonCell (Value.str s) = .error "JSONDecodeError") ∧
    json_loads " \x7b\"rating\": \"AA\", \"listed\": true\x7d " =
      some (Value.obj [ ( "rating", Value.str "AA"), ( "listed", Value.bool true) ]) ∧
    json_loads "\x7bnope" = none ∧
    (load_bond_data DataLoader.init bondBadTbl).1 = .error "JSONDecodeError" := by
  have hstep : ∀ u : String, jsonCell (Value.str u) =
      (if stripChars u.toList ≠ [] then
        (match json_loads u with
          | some j => Except.ok j
          | none => Except.error "JSONDecodeError")
        else Except.ok (Value.obj [])) := fun u => rfl
  refine ⟨?_, ?_, ?_, ?_, by rfl, by rfl, by rfl⟩
  · intro hb
    rw [hstep, if_neg (not_not_intro hb)]
  · intro v hv
    cases v with
    | str t => exact absurd rfl (hv t)
    | null => rfl
    | num q => rfl
    | bool b => rfl
    | date y m d => rfl
    | obj l => rfl
    | arr l => rfl
  · intro j hb hj
    rw [hstep, if_pos hb, hj]
  · intro hb hj
    rw [hstep, if_pos hb, hj]

/-- C4 witness: the four cell-level behaviours at concrete cells. -/
theorem json_cell_normalization_witness :
    jsonCell (Value.str "   ") = .ok (Value.obj []) ∧
    jsonCell Value.null = .ok (Value.obj []) ∧
    jsonCell (Value.str " \x7b\"rating\": \"AA\", \"listed\": true\x7d ") =
      .ok (Value.obj [ ( "rating", Value.str "AA"), ( "listed", Value.bool true) ]) ∧
    jsonCell (Value.str "\x7bnope") = .error "JSONDecodeError" :=
  ⟨(json_cell_normalization "   ").1 (by decide),
   (json_cell_normalization "").2.1 Value.null (fun t hx => Value.noConfusion hx),
   (json_cell_normalization " \x7b\"rating\": \"AA\", \"listed\": true\x7d ").2.2.1 _
     (by decide) (by rfl),
   (json_cell_normalization "\x7bnope").2.2.2.1 (by decide) (by rfl)⟩

/-- The caller's bond frame after the failing load: `issuer_details` (the
column processed before the failure) already parsed, the rest untouched. -/
def bondBadMutRow : Row :=
  setCell bondBadRow "issuer_details" (Value.obj [ ( "rating", Value.str "AA") ])

def bondBadMut : DataFrame := { cols := bondRequiredColumns, rows := [ bondBadMutRow ] }

/-- C10: loads normalize the caller's frame in place. On success every
JSON-column cell of the caller's bond/company frame is replaced by its parsed
value and every date/numeric cell of the cashflow frame by its coerced value;
on a malformed JSON cell, the returned (mutated) frame keeps the columns
processed before the failing one converted — as the concrete failing bond
load shows — while the stored state is untouched and the failing column keeps
its raw text. -/
theorem load_mutates_caller_frame :
    (∀ st df d s2, load_bond_data st df = (.ok (), d, s2) → WellFormed df →
      ∀ c, c ∈ bondJsonColumns → c ∈ df.cols → ∀ i, i < df.rows.length →
        ∃ j, jsonCell (getCell (df.rows.getD i []) c) = .ok j ∧
          getCell (d.rows.getD i []) c = j) ∧
    (∀ st df d s2, load_company_data st df = (.ok (), d, s2) → WellFormed df →
      ∀ c, c ∈ companyJsonColumns → c ∈ df.cols → ∀ i, i < df.rows.length →
        ∃ j, jsonCell (getCell (df.rows.getD i []) c) = .ok j ∧
          getCell (d.rows.getD i []) c = j) ∧
    (∀ st df d s2, load_cashflow_data st df = (.ok (), d, s2) →
      ∀ c, c ∈ dateColumns → c ∈ df.cols → ∀ i,
        getCell (d.rows.getD i []) c = toDateCell (getCell (df.rows.getD i []) c)) ∧
    (∀ st df d s2, load_cashflow_data st df = (.ok (), d, s2) →
      ∀ c, c ∈ numericColumns → c ∈ df.cols → ∀ i,
        getCell (d.rows.getD i []) c = toNumericCell (getCell (df.rows.getD i []) c)) ∧
    load_bond_data DataLoader.init bondBadTbl =
      (.error "JSONDecodeError", bondBadMut, DataLoader.init) ∧
    getCell (bondBadTbl.rows.getD 0 []) "issuer_details" =
      Value.str " \x7b\"rating\": \"AA\"\x7d " ∧
    getCell (bondBadMut.rows.getD 0 []) "issuer_details" =
      Value.obj [ ( "rating", Value.str "AA") ] ∧
    getCell (bondBadMut.rows.getD 0 []) "instrument_details" =
      Value.str "\x7bnope" := by
  refine ⟨?_, ?_, ?_, ?_, by rfl, by rfl, by rfl, by rfl⟩
  · intro st df d s2 h hwf c hmem hcol i hi
    rcases load_bond_data_ok h with ⟨hm, hp⟩
    exact processJsonCols_ok_cell hp (by decide) hmem hcol
      (fun j hj => hwf (df.rows.getD j []) (getD_mem hj) c hcol) i hi
  · intro st df d s2 h hwf c hmem hcol i hi
    rcases load_company_data_ok h with ⟨hm, hp⟩
    exact processJsonCols_ok_cell hp (by decide) hmem hcol
      (fun j hj => hwf (df.rows.getD j []) (getD_mem hj) c hcol) i hi
  · intro st df d s2 h c hmem hcol i
    rcases load_cashflow_data_ok h with ⟨hm, hd⟩
    have hnm : c ∉ numericColumns :=
      (by decide : ∀ x ∈ dateColumns, x ∉ numericColumns) c hmem
    rw [hd, processCoerceCols_notMem hnm toNumericCell _ i,
      processCoerceCols_cell toDateCell rfl (by decide) hmem hcol i]
  · intro st df d s2 h c hmem hcol i
    rcases load_cashflow_data_ok h with ⟨hm, hd⟩
    have hnd : c ∉ dateColumns :=
      (by decide : ∀ x ∈ numericColumns, x ∉ dateColumns) c hmem
    rw [hd,
      processCoerceCols_cell toNumericCell rfl (by decide) hmem
        (by rw [processCoerceCols_cols]; exact hcol) i,
      processCoerceCols_notMem hnd toDateCell df i]

/-- C10 witness: the concrete successful bond load parses the caller's
`issuer_details` cell in place. -/
theorem load_mutates_caller_frame_witness :
    ∃ j, jsonCell (getCell (bondOkTbl.rows.getD 0 []) "issuer_details") = .ok j ∧
      getCell ((load_bond_data DataLoader.init bondOkTbl).2.1.rows.getD 0 [])
        "issuer_details" = j :=
  load_mutates_caller_frame.1 DataLoader.init bondOkTbl
    (load_bond_data DataLoader.init bondOkTbl).2.1
    (load_bond_data DataLoader.init bondOkTbl).2.2 (by rfl) (by decide)
    "issuer_details" (by decide) (by decide) 0 (by decide)

/-- A loader holding only the company table (for the company fixtures). -/
def stCo : DataLoader := { DataLoader.init with company_insights := some coTbl }

/-- C1 counterexample: with the empty string as filter argument the code
takes the Python-falsy `if isin:` branch and returns the entire stored table
(one row), although no row's `isin` cell equals `""` — so the claim's
"returns exactly the rows whose isin column equals the argument, zero rows
when none match" fails at the argument `""`. -/
theorem get_details_empty_filter_counterexample :
    get_bond_details stLoaded (some "") = .ok isinTbl ∧
    isinTbl.rows.length = 1 ∧
    ∀ r ∈ isinTbl.rows, getCell r "isin" ≠ Value.str "" := by
  refine ⟨by rfl, by rfl, ?_⟩
  intro r hr
  rw [show isinTbl.rows = [ [ ( "isin", Value.str "INE000A01011") ] ] from rfl] at hr
  rw [List.mem_singleton] at hr
  rw [hr]
  intro hx
  rw [show getCell [ ( "isin", Value.str "INE000A01011") ] "isin" =
    Value.str "INE000A01011" from rfl] at hx
  injection hx with hx
  exact absurd hx (by decide)

/-- C1 (amended): for every stored bond (or cashflow) table and every
NON-EMPTY filter argument string, the lookup returns — without error —
exactly the rows of the stored table whose `isin` cell equals the argument
as a string; when no row matches, the result has zero rows. (The code treats
the empty string like a missing argument and returns the whole table.) -/
theorem get_details_filters_by_isin (st : DataLoader) (dfb dfc : DataFrame)
    (s : String) (hs : s ≠ "")
    (hb : st.bond_details = some dfb) (hc : st.cashflow_details = some dfc) :
    (∃ out, get_bond_details st (some s) = .ok out ∧ out.cols = dfb.cols ∧
      out.rows = dfb.rows.filter (fun r => Value.eqStr (getCell r "isin") s) ∧
      (∀ r, r ∈ out.rows ↔ r ∈ dfb.rows ∧ getCell r "isin" = Value.str s) ∧
      ((∀ r ∈ dfb.rows, getCell r "isin" ≠ Value.str s) → out.rows = [])) ∧
    (∃ out, get_cashflow_details st (some s) = .ok out ∧ out.cols = dfc.cols ∧
      out.rows = dfc.rows.filter (fun r => Value.eqStr (getCell r "isin") s) ∧
      (∀ r, r ∈ out.rows ↔ r ∈ dfc.rows ∧ getCell r "isin" = Value.str s) ∧
      ((∀ r ∈ dfc.rows, getCell r "isin" ≠ Value.str s) → out.rows = [])) := by
  constructor
  · refine ⟨filterRows dfb (fun r => Value.eqStr (getCell r "isin") s), ?_, rfl, rfl, ?_, ?_⟩
    · rw [get_bond_details_of_some hb s, if_neg hs]
    · intro r
      simp [filterRows, List.mem_filter, Value.eqStr_iff]
    · intro hnone
      apply List.filter_eq_nil_iff.mpr
      intro r hr
      cases hcase : Value.eqStr (getCell r "isin") s
      · simp
      · exact absurd ((Value.eqStr_iff _ _).mp hcase) (hnone r hr)
  · refine ⟨filterRows dfc (fun r => Value.eqStr (getCell r "isin") s), ?_, rfl, rfl, ?_, ?_⟩
    · rw [get_cashflow_details_of_some hc s, if_neg hs]
    · intro r
      simp [filterRows, List.mem_filter, Value.eqStr_iff]
    · intro hnone
      apply List.filter_eq_nil_iff.mpr
      intro r hr
      cases hcase : Value.eqStr (getCell r "isin") s
      · simp
      · exact absurd ((Value.eqStr_iff _ _).mp hcase) (hnone r hr)

/-- C1 witness: the amended claim at a concrete store and the stored ISIN. -/
theorem get_details_filters_by_isin_witness :
    (∃ out, get_bond_details stLoaded (some "INE000A01011") = .ok out ∧
      out.cols = isinTbl.cols ∧
      out.rows = isinTbl.rows.filter
        (fun r => Value.eqStr (getCell r "isin") "INE000A01011") ∧
      (∀ r, r ∈ out.rows ↔ r ∈ isinTbl.rows ∧
        getCell r "isin" = Value.str "INE000A01011") ∧
      ((∀ r ∈ isinTbl.rows, getCell r "isin" ≠ Value.str "INE000A01011") →
        out.rows = [])) ∧
    (∃ out, get_cashflow_details stLoaded (some "INE000A01011") = .ok out ∧
      out.cols = isinTbl.cols ∧
      out.rows = isinTbl.rows.filter
        (fun r => Value.eqStr (getCell r "isin") "INE000A01011") ∧
      (∀ r, r ∈ out.rows ↔ r ∈ isinTbl.rows ∧
        getCell r "isin" = Value.str "INE000A01011") ∧
      ((∀ r ∈ isinTbl.rows, getCell r "isin" ≠ Value.str "INE000A01011") →
        out.rows = [])) :=
  get_details_filters_by_isin stLoaded isinTbl isinTbl "INE000A01011"
    (by decide) rfl rfl

/-- C2 counterexample: `str.contains` treats the argument as a regular
expression, so the filter `"a.c"` returns the row named `"abc"` although
`"a.c"` is not a substring of `"abc"` — the claim's "exactly the rows whose
company_name contains the argument as a case-insensitive substring" fails. -/
theorem get_company_insights_regex_counterexample :
    get_company_insights stCo (some "a.c") = .ok { coTbl with rows := [ coRow1 ] } ∧
    getCell coRow1 "company_name" = Value.str "abc" ∧
    ¬ substrCI "a.c" "abc" :=
  ⟨by rfl, by rfl, by decide⟩

/-- C2 (amended): for every stored company table and every filter argument
that is non-empty and free of regex metacharacters, the lookup returns —
without error — exactly the rows whose `company_name` is a string containing
the argument as a case-insensitive substring; rows whose name is null (or any
non-string) never match. (For general arguments the code performs a
case-insensitive `re.search`, and the empty argument returns the whole
table.) -/
theorem get_company_insights_substring_filter (st : DataLoader) (df : DataFrame)
    (pat : String) (hp : pat ≠ "")
    (hlit : ∀ c ∈ pat.toList, regexMeta c = false)
    (h : st.company_insights = some df) :
    ∃ out, get_company_insights st (some pat) = .ok out ∧
      out.cols = df.cols ∧
      out.rows = df.rows.filter
        (fun r => strContainsMask pat (getCell r "company_name")) ∧
      (∀ r, r ∈ out.rows ↔ r ∈ df.rows ∧
        ∃ name, getCell r "company_name" = Value.str name ∧ substrCI pat name) ∧
      (∀ r ∈ df.rows, (∀ name, getCell r "company_name" ≠ Value.str name) →
        r ∉ out.rows) := by
  have hmask : ∀ v, strContainsMask pat v = true ↔
      ∃ name, v = Value.str name ∧ substrCI pat name := by
    intro v
    cases v with
    | str name =>
      simp only [strContainsMask, reSearch_literal hlit, Value.str.injEq]
      constructor
      · intro hx
        exact ⟨name, rfl, hx⟩
      · rintro ⟨name2, rfl, hx⟩
        exact hx
    | null => simp [strContainsMask]
    | num q => simp [strContainsMask]
    | bool b => simp [strContainsMask]
    | date y m d => simp [strContainsMask]
    | obj l => simp [strContainsMask]
    | arr l => simp [strContainsMask]
  refine ⟨filterRows df (fun r => strContainsMask pat (getCell r "company_name")),
    ?_, rfl, rfl, ?_, ?_⟩
  · rw [get_company_insights_of_some h pat, if_neg hp]
  · intro r
    rw [show (filterRows df
        (fun r => strContainsMask pat (getCell r "company_name"))).rows =
      df.rows.filter (fun r => strContainsMask pat (getCell r "company_name"))
      from rfl]
    rw [List.mem_filter, hmask]
  · intro r hr hnone hmem
    rw [show (filterRows df
        (fun r => strContainsMask pat (getCell r "company_name"))).rows =
      df.rows.filter (fun r => strContainsMask pat (getCell r "company_name"))
      from rfl] at hmem
    rcases (hmask _).mp (List.mem_filter.mp hmem).2 with ⟨name, hname, _⟩
    exact hnone name hname

/-- C2 witness: the amended claim at a concrete store with the literal
pattern `"b"`: the row named `"abc"` matches, the null-named row does not. -/
theorem get_company_insights_substring_filter_witness :
    ∃ out, get_company_insights stCo (some "b") = .ok out ∧
      out.cols = coTbl.cols ∧
      out.rows = coTbl.rows.filter
        (fun r => strContainsMask "b" (getCell r "company_name")) ∧
      (∀ r, r ∈ out.rows ↔ r ∈ coTbl.rows ∧
        ∃ name, getCell r "company_name" = Value.str name ∧ substrCI "b" name) ∧
      (∀ r ∈ coTbl.rows, (∀ name, getCell r "company_name" ≠ Value.str name) →
        r ∉ out.rows) :=
  get_company_insights_substring_filter stCo coTbl "b" (by decide) (by decide) rfl

end DataLoaderModel
